/-
Verification of the batch conversion pipeline of the barcode/QR generator
plugin: a shallow embedding of `src/utils/uploadQueue.ts`,
`src/hooks/useEnhancedUpload.ts`, the `useUploadToken` hook and the
`useBaseCodeConversion` hook, together with proofs about the embedded
definitions.
-/
import Mathlib

namespace BarcodePlugin

/-! ## JavaScript error values

An error reaching `UploadQueue.shouldRetry` is inspected through three
fields: `error.message`, `error.code` and `error.response?.status`.
We model exactly those three projections. -/

structure JsError where
  message : String
  code : Option String
  status : Option Nat
  deriving Repr, DecidableEq

/-- Embedding of `UploadQueue.shouldRetry` (src/utils/uploadQueue.ts,
lines 157-189): retryable iff the response status is 500/502/503/504,
the error code is NETWORK_ERROR/ECONNRESET/ECONNABORTED, or the message
is exactly "Request timeout". -/
def shouldRetry (e : JsError) : Bool :=
  e.status == some 500 ||
  e.status == some 502 ||
  e.status == some 503 ||
  e.status == some 504 ||
  e.code == some "NETWORK_ERROR" ||
  e.code == some "ECONNRESET" ||
  e.code == some "ECONNABORTED" ||
  e.message == "Request timeout"

/-- Embedding of the catch block inside `useEnhancedUpload.uploadFile`'s
`execute` (src/hooks/useEnhancedUpload.ts, lines 84-93): an error whose
response status is 500 is replaced by a plain
`new Error("Upload failed with 500 error: " + error.message)` — a value
with no `code` and no `response`; every other error is rethrown
unchanged. -/
def wrapUploadError (e : JsError) : JsError :=
  if e.status = some 500 then
    { message := "Upload failed with 500 error: " ++ e.message
      code := none
      status := none }
  else e

/-! ## The retry loop

`UploadQueue.executeWithRetry` (src/utils/uploadQueue.ts, lines 121-149)
runs `task.execute()` in a timeout race, and on failure either recurses
with `retryCount + 1` after a backoff delay (when the error is retryable
and `retryCount < maxRetries`) or rethrows.  The timeout race is part of
the attempt itself: an attempt that times out is an attempt that failed
with `Error("Request timeout")`, so we model one attempt as a function
from an execution state to a result plus a new state.  The state `σ`
threads whatever `task.execute` reads and writes (for the token hook it
is the number of credential-provider calls made so far).

`RetryRun` records, besides the settled result and final state, the
number of attempts made, the backoff delays slept between attempts, and
(as instrumentation) the state at which each attempt was started. -/

structure RetryRun (σ : Type) (α : Type) where
  result : Except JsError α
  finalState : σ
  attempts : Nat
  delays : List Nat
  states : List σ
  deriving Repr

/-- Embedding of `UploadQueue.executeWithRetry`: attempt once; on a
retryable failure with `retryCount < maxRetries` sleep
`min (2 ^ retryCount * 1000) 10000` ms and recurse with
`retryCount + 1`; otherwise settle with the error. -/
def executeWithRetry {σ α : Type} (maxRetries : Nat)
    (execute : σ → Except JsError α × σ) (retryCount : Nat) (st : σ) :
    RetryRun σ α :=
  match execute st with
  | (.ok v, st') => ⟨.ok v, st', 1, [], [st]⟩
  | (.error e, st') =>
    if shouldRetry e ∧ retryCount < maxRetries then
      let delay := min (2 ^ retryCount * 1000) 10000
      let r := executeWithRetry maxRetries execute (retryCount + 1) st'
      ⟨r.result, r.finalState, r.attempts + 1, delay :: r.delays, st :: r.states⟩
    else ⟨.error e, st', 1, [], [st]⟩
  termination_by maxRetries - retryCount
  decreasing_by omega

/-- The backoff formula of line 139: `Math.min(Math.pow(2, retryCount) * 1000, 10000)`. -/
def backoffDelay (retryCount : Nat) : Nat :=
  min (2 ^ retryCount * 1000) 10000

/-! ## The token hook

`useUploadToken.getFreshUploadToken` (src/unnamed/part_005) calls
`bridge.getSelfTempToken()` on every invocation — there is no cache — and
returns `null` when the bridge is missing or the call fails.
`executeWithFreshToken` first obtains a token this way, throws
`Error("Failed to obtain fresh authentication token for upload")` when it
is `null`, and otherwise passes the token to the upload function.  We
model the provider as the sequence of its call results
(`provider n` = result of the n-th `getSelfTempToken` call) and thread
the number of calls made so far as the execution state, so that one
invocation of `executeWithFreshToken` consumes exactly one provider
call. -/

def tokenFailError : JsError :=
  ⟨"Failed to obtain fresh authentication token for upload", none, none⟩

/-- Embedding of `useUploadToken.executeWithFreshToken`
(src/unnamed/part_005, lines 294-332) as one attempt of an upload task:
make a fresh provider call, then run the upload with the obtained token
(or fail when no token was obtained).  Both branches advance the call
counter: a provider call happens on every attempt, before the network
request. -/
def executeWithFreshToken {α : Type} (provider : Nat → Option String)
    (uploadFunction : String → Except JsError α) (calls : Nat) :
    Except JsError α × Nat :=
  match provider calls with
  | none => (.error tokenFailError, calls + 1)
  | some token => (uploadFunction token, calls + 1)

/-! ## The enhanced-upload wrapper

`useEnhancedUpload.uploadFile` (src/hooks/useEnhancedUpload.ts, lines
99-112) awaits `queue.addTask(task)` and converts the settled queue
outcome into an `UploadResult` value: it resolves `{success: true, data}`
on success and `{success: false, error: error.message || "Unknown upload
error"}` on any rejection — it never rethrows. -/

structure UploadResult (α : Type) where
  success : Bool
  data : Option α
  error : Option String
  deriving Repr, DecidableEq

/-- Embedding of the `try`/`catch` around `queue.addTask` in
`useEnhancedUpload.uploadFile`: a total function from the queue outcome
to the resolved `UploadResult` (totality models "always resolves, never
rejects").  `error.message || 'Unknown upload error'` falls back when the
message is the empty string (the only falsy string). -/
def uploadFile {α : Type} (outcome : Except JsError α) : UploadResult α :=
  match outcome with
  | .ok result => ⟨true, some result, none⟩
  | .error e =>
    ⟨false, none, some (if e.message = "" then "Unknown upload error" else e.message)⟩

/-! ## The upload queue state machine

`UploadQueue` (src/utils/uploadQueue.ts) keeps a FIFO `queue` of pending
tasks, a count `running` of in-flight tasks and `lastRequestTime`.
`processQueue` (lines 82-113) runs synchronously up to the dispatch: it
returns if `running >= maxConcurrency` or the queue is empty; if
`now - lastRequestTime < requestInterval` it schedules itself after
`requestInterval - timeSinceLastRequest` ms and returns; otherwise it
increments `running`, shifts the head task, stamps `lastRequestTime`,
and only decrements `running` in the `finally` after `executeWithRetry`
fully settles — so a task sleeping in backoff still holds its slot.

We model the in-flight tasks as a list of phases (`executing` or
`backoff`) whose length is the `running` counter, and the surrounding
event loop as a small-step relation `QStep`: time passes, tasks are
submitted, the synchronous dispatch prefix of `processQueue` fires, an
in-flight task moves in or out of backoff, settles, or the queue is
cleared.  `dispatchTimes` is instrumentation recording the timestamp of
every (initial) dispatch, newest first. -/

structure QueuedTask where
  id : String
  maxRetries : Nat
  deriving Repr, DecidableEq

inductive TaskPhase where
  | executing
  | backoff
  deriving Repr, DecidableEq

structure QueueState where
  queue : List QueuedTask
  inflight : List TaskPhase
  lastRequestTime : Nat
  now : Nat
  dispatchTimes : List Nat
  deriving Repr, DecidableEq

namespace UploadQueue

/-- The `running` counter: number of in-flight tasks, including those
whose slot is currently held by a backoff sleep. -/
def running (s : QueueState) : Nat := s.inflight.length

end UploadQueue

/-- Outcome of the synchronous prefix of one `processQueue` invocation. -/
inductive ProcessQueueOutcome where
  | ret
  | reschedule (waitMs : Nat)
  | dispatch
  deriving Repr, DecidableEq

/-- Embedding of `UploadQueue.processQueue`'s synchronous prefix
(src/utils/uploadQueue.ts, lines 82-101): return when at capacity or
empty; if the rate gate blocks, reschedule after exactly
`requestInterval - timeSinceLastRequest`; otherwise dispatch the head
task. -/
def processQueueCheck (maxConcurrency requestInterval : Nat)
    (s : QueueState) : ProcessQueueOutcome :=
  if maxConcurrency ≤ s.inflight.length ∨ s.queue.isEmpty then .ret
  else
    let timeSinceLastRequest := s.now - s.lastRequestTime
    if timeSinceLastRequest < requestInterval then
      .reschedule (requestInterval - timeSinceLastRequest)
    else .dispatch

/-- The `Error("Queue cleared")` used by `UploadQueue.clear` — the
error the spec names `QueueCancelled`. -/
def queueClearedError : JsError := ⟨"Queue cleared", none, none⟩

namespace UploadQueue

/-- Embedding of `UploadQueue.clear` (src/utils/uploadQueue.ts, lines
213-219): reject every queued task with `queueClearedError` and empty
the queue; nothing else of the state is touched. Returns the list of
(task id, rejection error) pairs delivered to the pending futures,
in queue order, together with the new state. -/
def clear (s : QueueState) : List (String × JsError) × QueueState :=
  (s.queue.map (fun t => (t.id, queueClearedError)), { s with queue := [] })

end UploadQueue

/-- One step of the queue's event loop.  `dispatch` is enabled exactly
when the synchronous prefix of `processQueue` reaches line 99: it
increments the in-flight list, shifts the head task and stamps
`lastRequestTime` with the current time, atomically (the prefix contains
no `await`, so nothing interleaves between the gate checks and the
update).  `enterBackoff` / `exitBackoff` move one in-flight task in and
out of its retry sleep without releasing its slot; `settle` removes a
finished task (the `finally` of lines 108-112); `clearStep` is a
`clear()` call. -/
inductive QStep (maxConcurrency requestInterval : Nat) :
    QueueState → QueueState → Prop where
  | tick (s : QueueState) (d : Nat) :
      QStep maxConcurrency requestInterval s { s with now := s.now + d }
  | submit (s : QueueState) (t : QueuedTask) :
      QStep maxConcurrency requestInterval s { s with queue := s.queue ++ [t] }
  | dispatch (s : QueueState) (t : QueuedTask) (rest : List QueuedTask) :
      s.queue = t :: rest →
      processQueueCheck maxConcurrency requestInterval s = .dispatch →
      QStep maxConcurrency requestInterval s
        { queue := rest
          inflight := TaskPhase.executing :: s.inflight
          lastRequestTime := s.now
          now := s.now
          dispatchTimes := s.now :: s.dispatchTimes }
  | enterBackoff (s : QueueState) (l1 l2 : List TaskPhase) :
      s.inflight = l1 ++ TaskPhase.executing :: l2 →
      QStep maxConcurrency requestInterval s
        { s with inflight := l1 ++ TaskPhase.backoff :: l2 }
  | exitBackoff (s : QueueState) (l1 l2 : List TaskPhase) :
      s.inflight = l1 ++ TaskPhase.backoff :: l2 →
      QStep maxConcurrency requestInterval s
        { s with inflight := l1 ++ TaskPhase.executing :: l2 }
  | settle (s : QueueState) (l1 l2 : List TaskPhase) :
      s.inflight = l1 ++ TaskPhase.executing :: l2 →
      QStep maxConcurrency requestInterval s { s with inflight := l1 ++ l2 }
  | clearStep (s : QueueState) :
      QStep maxConcurrency requestInterval s (UploadQueue.clear s).2

/-- A freshly constructed queue: empty, idle, `lastRequestTime = 0`
(line 49), observed first at wall-clock time `t0`. -/
def initState (t0 : Nat) : QueueState := ⟨[], [], 0, t0, []⟩

/-- States reachable by the event loop from a fresh queue. -/
def Reachable (maxConcurrency requestInterval t0 : Nat) (s : QueueState) : Prop :=
  Relation.ReflTransGen (QStep maxConcurrency requestInterval) (initState t0) s

/-- The inductive invariant of the queue's event loop: the in-flight
count is bounded by the capacity, the clock never lags the last
dispatch stamp, the most recent dispatch happened at `lastRequestTime`,
and consecutive recorded dispatch times (newest first) are at least
`requestInterval` apart. -/
def QueueInv (maxConcurrency requestInterval : Nat) (s : QueueState) : Prop :=
  s.inflight.length ≤ maxConcurrency ∧
  s.lastRequestTime ≤ s.now ∧
  (∀ t ∈ s.dispatchTimes.head?, t = s.lastRequestTime) ∧
  s.dispatchTimes.Chain' (fun a b => b + requestInterval ≤ a)

/-! ## The conversion pipeline

`useBaseCodeConversion.handleConvert` (src/unnamed/part_007) drives one
conversion run.  Phase 1 (lines 105-186) walks the records: a `null`
record or one whose field value is absent / stringifies to an
empty-after-trim string is skipped; every other record is accepted
(`totalItems += 1`, `processing += 1`) and encoded; on encoder exception
or an unsuccessful/blob-less encoder result the item is settled failed at
once; otherwise an upload task is enqueued.  Phase 2 (lines 190-236):
every enqueued upload settles exactly once through the `.then` handler on
`uploadFile`'s promise (which never rejects), calling
`updateStats('success')` or `updateStats('failed')`.  The `finally`
(lines 239-242) forces `processing := 0`.

The stats fields are JavaScript numbers mutated by `+=`, `-=`; we model
them as integers. -/

structure ConversionStats where
  success : Int
  failed : Int
  processing : Int
  deriving Repr, DecidableEq

/-- Embedding of `updateStats` (src/unnamed/part_007, lines 52-66):
bump `success` or `failed` by `increment` and decrement `processing` by
the same amount.  `isSuccess = true` models `type === 'success'`. -/
def updateStats (isSuccess : Bool) (increment : Int) (s : ConversionStats) :
    ConversionStats :=
  if isSuccess then
    { s with success := s.success + increment, processing := s.processing - increment }
  else
    { s with failed := s.failed + increment, processing := s.processing - increment }

/-- The projections of `ICodeResult` that `handleConvert` inspects
(line 137): `codeResult.success && codeResult.blob`. -/
structure ICodeResult where
  success : Bool
  hasBlob : Bool
  deriving Repr, DecidableEq

/-- One row as read by the loop: `record.fields[selectedUrlField]`
already passed through `String(...)` when non-null. -/
structure RecordRow where
  fieldValue : Option String
  deriving Repr, DecidableEq

/-- Result of a whole `handleConvert` run: the final stats, the number
of accepted non-empty items (`totalItems`), and the number of upload
tasks enqueued (`uploadTasks.length`). -/
structure ConversionRun where
  stats : ConversionStats
  totalItems : Nat
  uploadTaskCount : Nat
  deriving Repr, DecidableEq

/-- Phase 1 of `handleConvert` (lines 105-186): walk the records,
skipping `null` records and records whose value is null or trims to
empty; for each accepted item bump `totalItems` and `processing`, run
the encoder (`generateCode`, a `Except`-valued function since the source
also catches encoder exceptions), settle encoder failures immediately
via `updateStats('failed')`, and count an upload task otherwise. -/
def prepareItems (generateCode : String → Except String ICodeResult) :
    List (Option RecordRow) → ConversionStats → Nat → Nat →
    ConversionStats × Nat × Nat
  | [], stats, totalItems, pending => (stats, totalItems, pending)
  | none :: rest, stats, totalItems, pending =>
    prepareItems generateCode rest stats totalItems pending
  | some record :: rest, stats, totalItems, pending =>
    let text := record.fieldValue.getD ""
    if text = "" ∨ text.trim = "" then
      prepareItems generateCode rest stats totalItems pending
    else
      let stats1 := { stats with processing := stats.processing + 1 }
      match generateCode text.trim with
      | .ok codeResult =>
        if codeResult.success ∧ codeResult.hasBlob then
          prepareItems generateCode rest stats1 (totalItems + 1) (pending + 1)
        else
          prepareItems generateCode rest (updateStats false 1 stats1) (totalItems + 1) pending
      | .error _ =>
        prepareItems generateCode rest (updateStats false 1 stats1) (totalItems + 1) pending

/-- Phase 2 of `handleConvert`: the `.then` settlement handlers (lines
145-163).  Upload task number `i` settles with `uploadOutcome i`; a
successful `UploadResult` counts a success, anything else a failure.
Each task settles exactly once. -/
def settleUploads {α : Type} (uploadOutcome : Nat → UploadResult α) :
    Nat → Nat → ConversionStats → ConversionStats
  | _, 0, stats => stats
  | start, count + 1, stats =>
    settleUploads uploadOutcome (start + 1) count
      (updateStats (uploadOutcome start).success 1 stats)

/-- Embedding of one whole `handleConvert` run (src/unnamed/part_007,
lines 69-242): phase 1, then all upload settlements, then the `finally`
that resets `processing` to 0. -/
def handleConvert {α : Type} (generateCode : String → Except String ICodeResult)
    (uploadOutcome : Nat → UploadResult α) (records : List (Option RecordRow)) :
    ConversionRun :=
  let prepared := prepareItems generateCode records ⟨0, 0, 0⟩ 0 0
  let settled := settleUploads uploadOutcome 0 prepared.2.2 prepared.1
  ⟨{ settled with processing := 0 }, prepared.2.1, prepared.2.2⟩

/-! ## Progress reporting

`handleConvert` reports progress (lines 190-236) from the count of
*successful* uploads only: the 500 ms interval publishes
`(successfulUploads / uploadTasks.length) * 100`; after `Promise.all`
settles, the final value is 100 only when every upload succeeded (or
there were no upload tasks, line 235), and otherwise stays at the
success ratio (lines 226-231).  JavaScript numbers are IEEE doubles; we
model the reported values in `ℚ`, which is exact for the facts proved
here (0, 100, and the monotonicity of `s ↦ s/t*100` survive rounding). -/

/-- Embedding of `(successfulUploads / uploadTasks.length) * 100` (lines 196 and 227). -/
def successProgress (taskCount successfulUploads : Nat) : ℚ :=
  (successfulUploads : ℚ) / (taskCount : ℚ) * 100

/-- The progress value left in place when the run resolves (lines
222-236): 100 when there were no upload tasks or every one succeeded,
the success ratio otherwise.  `results` lists each upload task's
terminal success flag. -/
def finalProgress (results : List Bool) : ℚ :=
  if results.length = 0 then 100
  else
    let successfulUploads := (results.filter (fun b => b)).length
    if successfulUploads < results.length then
      successProgress results.length successfulUploads
    else 100

/-- The sequence of values handed to `setProgress` during one run with
at least one upload task: the two initial zeros (lines 75 and 102), one
interval sample per observed intermediate success count (line 197), and
the final value (lines 222-236). -/
def progressTrace (results : List Bool) (samples : List Nat) : List ℚ :=
  0 :: 0 :: samples.map (successProgress results.length) ++ [finalProgress results]

/-! ## Lemmas about the retry loop -/

/-- A non-retryable failure settles the run after exactly one attempt,
with no backoff and the failing error, whatever `retryCount` is. -/
lemma executeWithRetry_fatal {σ α : Type} (maxRetries : Nat)
    (execute : σ → Except JsError α × σ) (retryCount : Nat) (st st' : σ)
    (e : JsError) (hexec : execute st = (.error e, st'))
    (hfatal : shouldRetry e = false) :
    executeWithRetry maxRetries execute retryCount st = ⟨.error e, st', 1, [], [st]⟩ := by
  rw [executeWithRetry, hexec]
  simp [hfatal]

/-- One-step unfolding: a successful attempt settles at once. -/
lemma executeWithRetry_okStep {σ α : Type} (maxRetries : Nat)
    (execute : σ → Except JsError α × σ) (retryCount : Nat) (st st' : σ)
    (v : α) (hexec : execute st = (.ok v, st')) :
    executeWithRetry maxRetries execute retryCount st = ⟨.ok v, st', 1, [], [st]⟩ := by
  rw [executeWithRetry, hexec]

/-- One-step unfolding: a failed attempt that does not trigger a retry
(fatal error or retries exhausted) settles at once with the error. -/
lemma executeWithRetry_stopStep {σ α : Type} (maxRetries : Nat)
    (execute : σ → Except JsError α × σ) (retryCount : Nat) (st st' : σ)
    (e : JsError) (hexec : execute st = (.error e, st'))
    (hstop : ¬(shouldRetry e = true ∧ retryCount < maxRetries)) :
    executeWithRetry maxRetries execute retryCount st = ⟨.error e, st', 1, [], [st]⟩ := by
  rw [executeWithRetry, hexec]
  simp only [if_neg hstop]

/-- One-step unfolding: a retryable failure below the retry budget
recurses after a `backoffDelay retryCount` sleep. -/
lemma executeWithRetry_retryStep {σ α : Type} (maxRetries : Nat)
    (execute : σ → Except JsError α × σ) (retryCount : Nat) (st st' : σ)
    (e : JsError) (hexec : execute st = (.error e, st'))
    (hr : shouldRetry e = true) (hlt : retryCount < maxRetries) :
    executeWithRetry maxRetries execute retryCount st =
      ⟨(executeWithRetry maxRetries execute (retryCount + 1) st').result,
       (executeWithRetry maxRetries execute (retryCount + 1) st').finalState,
       (executeWithRetry maxRetries execute (retryCount + 1) st').attempts + 1,
       backoffDelay retryCount :: (executeWithRetry maxRetries execute (retryCount + 1) st').delays,
       st :: (executeWithRetry maxRetries execute (retryCount + 1) st').states⟩ := by
  rw [executeWithRetry, hexec]
  simp [hr, hlt, backoffDelay]

/-- When every attempt fails retryably, the loop runs the remaining
`maxRetries - retryCount` retries, sleeping `backoffDelay` after each
failed attempt, and settles with the last attempt's error. -/
lemma executeWithRetry_allRetryable {α : Type} (maxRetries : Nat) (errs : Nat → JsError)
    (hretry : ∀ n, shouldRetry (errs n) = true) :
    ∀ k retryCount, retryCount + k = maxRetries →
      executeWithRetry maxRetries
          (fun n => ((Except.error (errs n) : Except JsError α), n + 1))
          retryCount retryCount =
        ⟨.error (errs maxRetries), maxRetries + 1, k + 1,
          (List.range' retryCount k).map backoffDelay,
          List.range' retryCount (k + 1)⟩ := by
  intro k
  induction k with
  | zero =>
    intro rc h
    have hrc : rc = maxRetries := by omega
    rw [executeWithRetry_stopStep maxRetries _ rc rc (rc + 1) (errs rc) rfl
      (fun hand => absurd hand.2 (by omega))]
    rw [hrc]
    simp
  | succ k ih =>
    intro rc h
    have hlt : rc < maxRetries := by omega
    rw [executeWithRetry_retryStep maxRetries _ rc rc (rc + 1) (errs rc) rfl (hretry rc) hlt]
    rw [ih (rc + 1) (by omega)]
    simp [List.range'_succ]

/-- Every run makes at least one attempt. -/
lemma executeWithRetry_attempts_pos {σ α : Type} (maxRetries : Nat)
    (execute : σ → Except JsError α × σ) (retryCount : Nat) (st : σ) :
    1 ≤ (executeWithRetry maxRetries execute retryCount st).attempts := by
  induction retryCount, st using executeWithRetry.induct maxRetries execute with
  | case1 rc st v st' h =>
    rw [executeWithRetry_okStep maxRetries execute rc st st' v h]
  | case2 rc st e st' h hcond ih =>
    rw [executeWithRetry_retryStep maxRetries execute rc st st' e h hcond.1 hcond.2]
    simp
  | case3 rc st e st' h hcond =>
    rw [executeWithRetry_stopStep maxRetries execute rc st st' e h hcond]

/-- When each attempt advances the call counter by one, the counters at
which the attempts start are consecutive, and the final counter is the
start plus the number of attempts. -/
lemma executeWithRetry_counter {α : Type} (maxRetries : Nat)
    (execute : Nat → Except JsError α × Nat)
    (hinc : ∀ c, (execute c).2 = c + 1) (retryCount calls : Nat) :
    (executeWithRetry maxRetries execute retryCount calls).states =
      List.range' calls (executeWithRetry maxRetries execute retryCount calls).attempts ∧
    (executeWithRetry maxRetries execute retryCount calls).finalState =
      calls + (executeWithRetry maxRetries execute retryCount calls).attempts := by
  induction retryCount, calls using executeWithRetry.induct maxRetries execute with
  | case1 rc st v st' h =>
    have hst : st' = st + 1 := by have hc := hinc st; rw [h] at hc; exact hc
    rw [executeWithRetry_okStep maxRetries execute rc st st' v h]
    simp [hst]
  | case2 rc st e st' h hcond ih =>
    have hst : st' = st + 1 := by have hc := hinc st; rw [h] at hc; exact hc
    rw [executeWithRetry_retryStep maxRetries execute rc st st' e h hcond.1 hcond.2]
    subst hst
    refine ⟨?_, ?_⟩
    · simp only [ih.1]
      rw [List.range'_succ]
    · simp only [ih.2]
      omega
  | case3 rc st e st' h hcond =>
    have hst : st' = st + 1 := by have hc := hinc st; rw [h] at hc; exact hc
    rw [executeWithRetry_stopStep maxRetries execute rc st st' e h hcond]
    simp [hst]

/-! ## Claim theorems: retry behaviour -/

/-- C5: a task whose `execute()` always fails with a retryable error is
attempted exactly `maxRetries + 1` times; the backoff slept after failed
attempt number `attempt` (counting from 0) is
`min (2 ^ attempt * 1000) 10000` ms, and the run settles with the last
attempt's error (the task's future rejects with it). -/
theorem retryable_attempts_exhaustion {α : Type} (maxRetries : Nat)
    (errs : Nat → JsError) (hretry : ∀ n, shouldRetry (errs n) = true) :
    (executeWithRetry maxRetries
        (fun n => ((Except.error (errs n) : Except JsError α), n + 1)) 0 0).attempts =
      maxRetries + 1 ∧
    (executeWithRetry maxRetries
        (fun n => ((Except.error (errs n) : Except JsError α), n + 1)) 0 0).delays =
      (List.range maxRetries).map (fun attempt => min (2 ^ attempt * 1000) 10000) ∧
    (executeWithRetry maxRetries
        (fun n => ((Except.error (errs n) : Except JsError α), n + 1)) 0 0).result =
      .error (errs maxRetries) := by
  have h := executeWithRetry_allRetryable (α := α) maxRetries errs hretry maxRetries 0
    (by omega)
  rw [h]
  refine ⟨rfl, ?_, rfl⟩
  simp [List.range_eq_range', backoffDelay]

/-- Witness for C5: with `maxRetries = 3` and every attempt failing with
an HTTP 500 error, the task is attempted 4 times with backoffs
1000, 2000, 4000 ms and rejects with the 500 error. -/
theorem retryable_attempts_exhaustion_witness :
    (executeWithRetry 3
        (fun n => ((Except.error ⟨"Internal Server Error", none, some 500⟩ :
          Except JsError Unit), n + 1)) 0 0).attempts = 3 + 1 ∧
    (executeWithRetry 3
        (fun n => ((Except.error ⟨"Internal Server Error", none, some 500⟩ :
          Except JsError Unit), n + 1)) 0 0).delays =
      (List.range 3).map (fun attempt => min (2 ^ attempt * 1000) 10000) ∧
    (executeWithRetry 3
        (fun n => ((Except.error ⟨"Internal Server Error", none, some 500⟩ :
          Except JsError Unit), n + 1)) 0 0).result =
      .error ⟨"Internal Server Error", none, some 500⟩ :=
  retryable_attempts_exhaustion 3 (fun _ => ⟨"Internal Server Error", none, some 500⟩)
    (fun _ => (by decide :
      shouldRetry ⟨"Internal Server Error", none, some 500⟩ = true))

/-- C6: a task whose first attempt fails with a fatal (non-retryable)
error is attempted exactly once — no backoff, no retry consumed — and
its future rejects immediately with that error. -/
theorem fatal_single_attempt {σ α : Type} (maxRetries : Nat)
    (execute : σ → Except JsError α × σ) (st st' : σ) (e : JsError)
    (hexec : execute st = (.error e, st')) (hfatal : shouldRetry e = false) :
    executeWithRetry maxRetries execute 0 st = ⟨.error e, st', 1, [], [st]⟩ :=
  executeWithRetry_fatal maxRetries execute 0 st st' e hexec hfatal

/-- Witness for C6: an HTTP 400 (validation-style) failure settles after
exactly one attempt even though `maxRetries = 3`. -/
theorem fatal_single_attempt_witness :
    executeWithRetry 3
        (fun n : Nat => ((Except.error ⟨"Request failed with status code 400", none, some 400⟩ :
          Except JsError Unit), n + 1)) 0 0 =
      ⟨.error ⟨"Request failed with status code 400", none, some 400⟩, 1, 1, [], [0]⟩ :=
  fatal_single_attempt 3 _ 0 1 _ rfl (by decide)

/-- C7 counterexample: `useEnhancedUpload.uploadFile` wraps an upstream
HTTP 500 failure into a plain `Error` carrying neither `response` nor
`code`, so the error reaching `shouldRetry` is classified fatal and the
upload is attempted exactly once — not retried. -/
theorem http500_wrapped_fatal_counterexample :
    shouldRetry (wrapUploadError ⟨"Request failed with status code 500", none, some 500⟩) = false ∧
    (executeWithRetry 3
        (fun n : Nat =>
          ((Except.error (wrapUploadError ⟨"Request failed with status code 500", none, some 500⟩) :
            Except JsError Unit), n + 1)) 0 0).attempts = 1 := by
  refine ⟨by decide, ?_⟩
  rw [executeWithRetry_fatal 3 _ 0 0 1 _ rfl (by decide)]

/-- C7 as amended: errors carrying an upstream 500/502/503/504 response
status, a connection-reset / network / abort code, or the timeout
message are classified retryable by `shouldRetry`; but `uploadFile`
rewraps a status-500 failure into a plain `Error` that `shouldRetry`
classifies as fatal, while 502/503/504 failures reach the classifier
unchanged (and hence are retried). -/
theorem retry_classification_amended (e : JsError) :
    (e.status = some 500 ∨ e.status = some 502 ∨ e.status = some 503 ∨ e.status = some 504 →
      shouldRetry e = true) ∧
    (e.code = some "NETWORK_ERROR" ∨ e.code = some "ECONNRESET" ∨ e.code = some "ECONNABORTED" ∨
      e.message = "Request timeout" → shouldRetry e = true) ∧
    (e.status = some 500 → shouldRetry (wrapUploadError e) = false) ∧
    (e.status = some 502 ∨ e.status = some 503 ∨ e.status = some 504 → wrapUploadError e = e) := by
  refine ⟨?_, ?_, ?_, ?_⟩
  · rintro (h | h | h | h) <;> simp [shouldRetry, h]
  · rintro (h | h | h | h) <;> simp [shouldRetry, h]
  · intro h
    have hne : ("Upload failed with 500 error: " ++ e.message == "Request timeout") = false := by
      rw [beq_eq_false_iff_ne]
      intro habs
      have hlen := congrArg String.length habs
      rw [String.length_append] at hlen
      have h30 : ("Upload failed with 500 error: ").length = 30 := rfl
      have h15 : ("Request timeout").length = 15 := rfl
      omega
    simp [wrapUploadError, h, shouldRetry, hne]
  · rintro (h | h | h) <;> simp [wrapUploadError, h]

/-- Witness for C7 amended, at a concrete axios-style 500 error and a
concrete 503 error. -/
theorem retry_classification_amended_witness :
    shouldRetry ⟨"Internal Server Error", none, some 500⟩ = true ∧
    shouldRetry (wrapUploadError ⟨"Internal Server Error", none, some 500⟩) = false ∧
    wrapUploadError ⟨"Service Unavailable", none, some 503⟩ =
      ⟨"Service Unavailable", none, some 503⟩ :=
  ⟨(retry_classification_amended ⟨"Internal Server Error", none, some 500⟩).1 (Or.inl rfl),
   (retry_classification_amended ⟨"Internal Server Error", none, some 500⟩).2.2.1 rfl,
   (retry_classification_amended ⟨"Service Unavailable", none, some 503⟩).2.2.2
     (Or.inr (Or.inl rfl))⟩

/-- C9: every attempt of an upload task built on `executeWithFreshToken`
makes exactly one fresh credential-provider call before its request
(conjunct 1); across the retries of one task the attempts start at
consecutive provider-call indices `calls0, calls0 + 1, …` (conjunct 2),
so no credential obtained for one attempt is reused by a later attempt;
and the provider-call indices of this task and of a second task run
after it are all pairwise distinct (conjunct 4: no credential is shared
with a different item's upload). -/
theorem fresh_token_per_attempt {α β : Type} (maxRetries maxRetries2 : Nat)
    (provider : Nat → Option String)
    (uploadFunction : String → Except JsError α)
    (uploadFunction2 : String → Except JsError β) (calls0 : Nat) :
    (∀ calls, (executeWithFreshToken provider uploadFunction calls).2 = calls + 1) ∧
    (executeWithRetry maxRetries (executeWithFreshToken provider uploadFunction) 0 calls0).states =
      List.range' calls0
        (executeWithRetry maxRetries (executeWithFreshToken provider uploadFunction) 0 calls0).attempts ∧
    1 ≤ (executeWithRetry maxRetries (executeWithFreshToken provider uploadFunction) 0 calls0).attempts ∧
    ((executeWithRetry maxRetries (executeWithFreshToken provider uploadFunction) 0 calls0).states ++
      (executeWithRetry maxRetries2 (executeWithFreshToken provider uploadFunction2) 0
        (executeWithRetry maxRetries (executeWithFreshToken provider uploadFunction) 0
          calls0).finalState).states).Nodup ∧
    (executeWithRetry maxRetries (executeWithFreshToken provider uploadFunction) 0 calls0).finalState =
      calls0 +
        (executeWithRetry maxRetries (executeWithFreshToken provider uploadFunction) 0 calls0).attempts := by
  have hinc : ∀ calls, (executeWithFreshToken provider uploadFunction calls).2 = calls + 1 := by
    intro calls
    unfold executeWithFreshToken
    cases provider calls <;> rfl
  have hinc2 : ∀ calls, (executeWithFreshToken provider uploadFunction2 calls).2 = calls + 1 := by
    intro calls
    unfold executeWithFreshToken
    cases provider calls <;> rfl
  have h1 := executeWithRetry_counter maxRetries (executeWithFreshToken provider uploadFunction)
    hinc 0 calls0
  have h2 := executeWithRetry_counter maxRetries2 (executeWithFreshToken provider uploadFunction2)
    hinc2 0 (executeWithRetry maxRetries (executeWithFreshToken provider uploadFunction) 0
      calls0).finalState
  refine ⟨hinc, h1.1, executeWithRetry_attempts_pos _ _ _ _, ?_, h1.2⟩
  rw [h1.1, h2.1, h1.2]
  rw [List.nodup_append]
  refine ⟨List.nodup_range' _ _, List.nodup_range' _ _, ?_⟩
  intro x hx hy
  rw [List.mem_range'_1] at hx hy
  omega

/-! ## Lemmas about the conversion pipeline -/

/-- Accounting for phase 1: walking the records never touches `success`;
it accepts `t' - t` items, of which `p' - p` become upload tasks and the
rest are settled as encoder failures; `processing` grows by exactly the
number of still-unsettled (enqueued) items. -/
lemma prepareItems_spec (generateCode : String → Except String ICodeResult) :
    ∀ (l : List (Option RecordRow)) (s : ConversionStats) (t p : Nat)
      (s' : ConversionStats) (t' p' : Nat),
      prepareItems generateCode l s t p = (s', t', p') →
      s'.success = s.success ∧
      t ≤ t' ∧ p ≤ p' ∧ p' - p ≤ t' - t ∧
      s'.failed = s.failed + (((t' : Int) - t) - ((p' : Int) - p)) ∧
      s'.processing = s.processing + ((p' : Int) - p) := by
  intro l
  induction l with
  | nil =>
    intro s t p s' t' p' heq
    simp only [prepareItems, Prod.mk.injEq] at heq
    obtain ⟨h1, h2, h3⟩ := heq
    subst h1; subst h2; subst h3
    simp
  | cons head rest ih =>
    intro s t p s' t' p' heq
    match head with
    | none =>
      simp only [prepareItems] at heq
      exact ih s t p s' t' p' heq
    | some record =>
      simp only [prepareItems] at heq
      by_cases hempty : record.fieldValue.getD "" = "" ∨ (record.fieldValue.getD "").trim = ""
      · rw [if_pos hempty] at heq
        exact ih s t p s' t' p' heq
      · rw [if_neg hempty] at heq
        cases hgc : generateCode ((record.fieldValue.getD "").trim) with
        | ok codeResult =>
          rw [hgc] at heq
          dsimp only at heq
          by_cases hok : codeResult.success = true ∧ codeResult.hasBlob = true
          · rw [if_pos hok] at heq
            have h := ih _ _ _ _ _ _ heq
            simp only at h
            refine ⟨h.1, by omega, by omega, by omega, ?_, ?_⟩
            · rw [h.2.2.2.2.1]
              push_cast
              omega
            · rw [h.2.2.2.2.2]
              push_cast
              omega
          · rw [if_neg hok] at heq
            have h := ih _ _ _ _ _ _ heq
            simp only [updateStats, if_neg (Bool.false_ne_true ∘ id)] at h
            refine ⟨by simpa using h.1, by omega, by omega, by omega, ?_, ?_⟩
            · have := h.2.2.2.2.1
              simp only [Bool.false_eq_true, if_false] at this
              rw [this]
              push_cast
              omega
            · have := h.2.2.2.2.2
              simp only [Bool.false_eq_true, if_false] at this
              rw [this]
              omega
        | error msg =>
          rw [hgc] at heq
          dsimp only at heq
          have h := ih _ _ _ _ _ _ heq
          simp only [updateStats, Bool.false_eq_true, if_false] at h
          refine ⟨by simpa using h.1, by omega, by omega, by omega, ?_, ?_⟩
          · have := h.2.2.2.2.1
            rw [this]
            push_cast
            omega
          · have := h.2.2.2.2.2
            rw [this]
            omega

/-- Accounting for phase 2: settling upload tasks
`start, …, start + count - 1` adds one success per successful
`UploadResult`, one failure per unsuccessful one, and decrements
`processing` once per settled task. -/
lemma settleUploads_spec {α : Type} (uploadOutcome : Nat → UploadResult α) :
    ∀ (count start : Nat) (s : ConversionStats),
      (settleUploads uploadOutcome start count s).success =
        s.success + (((List.range' start count).countP
          (fun i => (uploadOutcome i).success)) : Int) ∧
      (settleUploads uploadOutcome start count s).failed =
        s.failed + (count : Int) - (((List.range' start count).countP
          (fun i => (uploadOutcome i).success)) : Int) ∧
      (settleUploads uploadOutcome start count s).processing =
        s.processing - (count : Int) := by
  intro count
  induction count with
  | zero =>
    intro start s
    simp [settleUploads]
  | succ count ih =>
    intro start s
    have h := ih (start + 1) (updateStats (uploadOutcome start).success 1 s)
    simp only [settleUploads]
    rw [List.range'_succ, List.countP_cons, h.1, h.2.1, h.2.2]
    cases hsucc : (uploadOutcome start).success with
    | true =>
      simp only [updateStats, hsucc, if_true]
      refine ⟨by push_cast; omega, by push_cast; omega, by push_cast; omega⟩
    | false =>
      simp only [updateStats, hsucc, Bool.false_eq_true, if_false]
      refine ⟨by push_cast; omega, by push_cast; omega, by push_cast; omega⟩

/-! ## Lemmas about the progress values -/

lemma successProgress_nonneg (taskCount s : Nat) : 0 ≤ successProgress taskCount s := by
  unfold successProgress
  positivity

lemma successProgress_mono (taskCount : Nat) {s s' : Nat} (h : s ≤ s') :
    successProgress taskCount s ≤ successProgress taskCount s' := by
  rcases Nat.eq_zero_or_pos taskCount with ht | ht
  · subst ht
    simp [successProgress]
  · unfold successProgress
    have ht' : (0 : ℚ) < taskCount := by exact_mod_cast ht
    have hc : (s : ℚ) ≤ (s' : ℚ) := by exact_mod_cast h
    gcongr

lemma successProgress_le_100 (taskCount s : Nat) (h : s ≤ taskCount) :
    successProgress taskCount s ≤ 100 := by
  rcases Nat.eq_zero_or_pos taskCount with ht | ht
  · subst ht
    simp [successProgress]
  · unfold successProgress
    have ht' : (0 : ℚ) < taskCount := by exact_mod_cast ht
    have hr : (s : ℚ) / taskCount ≤ 1 := by
      rw [div_le_one ht']
      exact_mod_cast h
    calc (s : ℚ) / taskCount * 100 ≤ 1 * 100 :=
      mul_le_mul_of_nonneg_right hr (by norm_num)
    _ = 100 := by norm_num

lemma successProgress_lt_100 (taskCount s : Nat) (ht : 0 < taskCount)
    (h : s < taskCount) : successProgress taskCount s < 100 := by
  unfold successProgress
  have ht' : (0 : ℚ) < taskCount := by exact_mod_cast ht
  have hr : (s : ℚ) / taskCount < 1 := by
    rw [div_lt_one ht']
    exact_mod_cast h
  calc (s : ℚ) / taskCount * 100 < 1 * 100 :=
    mul_lt_mul_of_pos_right hr (by norm_num)
  _ = 100 := by norm_num

/-- Zeta-reduced form of `finalProgress`. -/
lemma finalProgress_def (results : List Bool) :
    finalProgress results =
      if results.length = 0 then 100
      else if (results.filter (fun b => b)).length < results.length then
        successProgress results.length (results.filter (fun b => b)).length
      else 100 := rfl

lemma finalProgress_nonneg (results : List Bool) : 0 ≤ finalProgress results := by
  rw [finalProgress_def]
  split
  · norm_num
  · split
    · exact successProgress_nonneg _ _
    · norm_num

/-- Any interval sample taken at a success count not exceeding the final
success count is bounded by the final progress value. -/
lemma successProgress_le_finalProgress (results : List Bool) (x : Nat)
    (hx : x ≤ (results.filter (fun b => b)).length) :
    successProgress results.length x ≤ finalProgress results := by
  rw [finalProgress_def]
  split
  · rename_i hlen
    have : results.length = 0 := hlen
    rw [this]
    calc successProgress 0 x = 0 := by simp [successProgress]
    _ ≤ 100 := by norm_num
  · rename_i hlen
    split
    · exact successProgress_mono results.length hx
    · exact successProgress_le_100 results.length x
        (le_trans hx (List.length_filter_le _ _))

/-- The run's final progress value is 100 exactly when every upload
task succeeded (vacuously including the no-upload-tasks run). -/
lemma finalProgress_eq_100_iff (results : List Bool) :
    finalProgress results = 100 ↔ ∀ b ∈ results, b = true := by
  rw [finalProgress_def]
  by_cases hlen : results.length = 0
  · rw [if_pos hlen]
    rw [List.length_eq_zero] at hlen
    subst hlen
    simp
  · rw [if_neg hlen]
    have hle : (results.filter (fun b => b)).length ≤ results.length :=
      List.length_filter_le _ _
    by_cases hlt : (results.filter (fun b => b)).length < results.length
    · rw [if_pos hlt]
      constructor
      · intro habs
        have := successProgress_lt_100 results.length
          (results.filter (fun b => b)).length (by omega) hlt
        rw [habs] at this
        exact absurd this (lt_irrefl 100)
      · intro hall
        have hfe : results.filter (fun b => b) = results :=
          List.filter_eq_self.mpr (by intro a ha; simpa using hall a ha)
        rw [hfe] at hlt
        exact absurd hlt (lt_irrefl _)
    · rw [if_neg hlt]
      have hflen : (results.filter (fun b => b)).length = results.length := by omega
      have hfe : results.filter (fun b => b) = results :=
        (List.filter_sublist results).eq_of_length hflen
      constructor
      · intro _
        intro b hb
        have := List.filter_eq_self.mp hfe b hb
        simpa using this
      · intro _
        rfl

/-! ## Claim theorems: the conversion run -/

/-- C1: once `handleConvert` resolves, `success + failed = totalItems`
(the count of accepted, non-empty items) and `processing = 0`; moreover
`success` is exactly the number of upload tasks that settled
successfully — every accepted item is counted exactly once, either as a
success or as a failure (encoder failure or upload failure). -/
theorem stats_settle_complete {α : Type}
    (generateCode : String → Except String ICodeResult)
    (uploadOutcome : Nat → UploadResult α) (records : List (Option RecordRow)) :
    (handleConvert generateCode uploadOutcome records).stats.success +
      (handleConvert generateCode uploadOutcome records).stats.failed =
      ((handleConvert generateCode uploadOutcome records).totalItems : Int) ∧
    (handleConvert generateCode uploadOutcome records).stats.processing = 0 ∧
    (handleConvert generateCode uploadOutcome records).stats.success =
      (((List.range (handleConvert generateCode uploadOutcome records).uploadTaskCount).countP
        (fun i => (uploadOutcome i).success)) : Int) ∧
    (handleConvert generateCode uploadOutcome records).uploadTaskCount ≤
      (handleConvert generateCode uploadOutcome records).totalItems := by
  obtain ⟨s', t', p', heq⟩ :
      ∃ s' t' p', prepareItems generateCode records ⟨0, 0, 0⟩ 0 0 = (s', t', p') :=
    ⟨_, _, _, rfl⟩
  obtain ⟨hp1, hp2, hp3, hp4, hp5, hp6⟩ :=
    prepareItems_spec generateCode records ⟨0, 0, 0⟩ 0 0 s' t' p' heq
  have hs := settleUploads_spec uploadOutcome p' 0 s'
  have hrun : handleConvert generateCode uploadOutcome records =
      ⟨{ settleUploads uploadOutcome 0 p' s' with processing := 0 }, t', p'⟩ := by
    simp only [handleConvert, heq]
  rw [hrun]
  simp only at hp1 hp5 hp6
  refine ⟨?_, rfl, ?_, ?_⟩
  · show (settleUploads uploadOutcome 0 p' s').success +
      (settleUploads uploadOutcome 0 p' s').failed = (t' : Int)
    rw [hs.1, hs.2.1, hp1, hp5]
    push_cast
    omega
  · show (settleUploads uploadOutcome 0 p' s').success = _
    rw [List.range_eq_range', hs.1, hp1]
    push_cast
    omega
  · show p' ≤ t'
    omega

/-- C2 counterexample: in a run with one upload task whose upload fails
terminally, the final progress value is 0, not 100 — the claim that
progress equals exactly 100 at resolution even when some items fail is
false on the code, which keeps progress at the success ratio
(src/unnamed/part_007, lines 226-231). -/
theorem progress_partial_failure_counterexample :
    finalProgress [false] = 0 ∧ ¬ finalProgress [false] = 100 := by
  rw [finalProgress_def]
  norm_num [successProgress]

/-- C2 as amended: over one run, the sequence of reported progress
values (the initial zeros, interval samples at non-decreasing observed
success counts bounded by the final success count, and the final value)
is monotonically non-decreasing; but at resolution the progress equals
100 exactly when every upload task succeeded (vacuously when there are
none) — under partial failure it stays at the success ratio, below
100. -/
theorem progress_monotone_success_only (results : List Bool) (samples : List Nat)
    (hsorted : samples.Sorted (· ≤ ·))
    (hbound : ∀ x ∈ samples, x ≤ (results.filter (fun b => b)).length) :
    (progressTrace results samples).Sorted (· ≤ ·) ∧
    (finalProgress results = 100 ↔ ∀ b ∈ results, b = true) := by
  refine ⟨?_, finalProgress_eq_100_iff results⟩
  have hmap : ∀ q ∈ samples.map (successProgress results.length), 0 ≤ q := by
    intro q hq
    obtain ⟨x, _, rfl⟩ := List.mem_map.mp hq
    exact successProgress_nonneg _ _
  unfold progressTrace
  simp only [List.Sorted]
  rw [List.pairwise_append]
  refine ⟨?_, by simp, ?_⟩
  · rw [List.pairwise_cons, List.pairwise_cons]
    refine ⟨?_, hmap, List.Pairwise.map _
      (fun a b hab => successProgress_mono results.length hab) hsorted⟩
    intro b hb
    rcases List.mem_cons.mp hb with rfl | hb
    · exact le_refl 0
    · exact hmap b hb
  · intro a ha b hb
    rw [List.mem_singleton] at hb
    subst hb
    rcases List.mem_cons.mp ha with rfl | ha
    · exact finalProgress_nonneg results
    rcases List.mem_cons.mp ha with rfl | ha
    · exact finalProgress_nonneg results
    obtain ⟨x, hx, rfl⟩ := List.mem_map.mp ha
    exact successProgress_le_finalProgress results x (hbound x hx)

/-- Witness for C2 amended: a run with two upload tasks, one of which
fails, sampled at success counts 0 and 1. -/
theorem progress_monotone_success_only_witness :
    (progressTrace [true, false] [0, 1]).Sorted (· ≤ ·) ∧
    (finalProgress [true, false] = 100 ↔ ∀ b ∈ [true, false], b = true) :=
  progress_monotone_success_only [true, false] [0, 1] (by decide) (by decide)

/-- C10: `uploadFile` is a total function from the queue outcome to a
resolved `UploadResult` — it never propagates a rejection.  A queue
success resolves `{success := true, data}`; any terminal failure
(retries exhausted, fatal error, or queue cancellation) resolves
`{success := false, error := message}` with the fallback text when the
message is empty. -/
theorem uploadFile_never_rejects {α : Type} :
    (∀ result : α, uploadFile (Except.ok result) = ⟨true, some result, none⟩) ∧
    (∀ e : JsError, uploadFile (Except.error e) =
      (⟨false, none, some (if e.message = "" then "Unknown upload error" else e.message)⟩ :
        UploadResult α)) :=
  ⟨fun _ => rfl, fun _ => rfl⟩

/-- C8: `clear` rejects every not-yet-started queued task's future with
the `Queue cleared` (`QueueCancelled`) error — one rejection per queued
task, in order — and empties the pending queue, while the in-flight
tasks and the `running` count are untouched. -/
theorem clear_rejects_pending (s : QueueState) :
    (UploadQueue.clear s).2.queue = [] ∧
    (UploadQueue.clear s).2.inflight = s.inflight ∧
    UploadQueue.running (UploadQueue.clear s).2 = UploadQueue.running s ∧
    (UploadQueue.clear s).2.lastRequestTime = s.lastRequestTime ∧
    (UploadQueue.clear s).1 = s.queue.map (fun t => (t.id, queueClearedError)) :=
  ⟨rfl, rfl, rfl, rfl, rfl⟩

/-! ## Lemmas about the queue state machine -/

/-- Zeta-reduced form of `processQueueCheck`. -/
lemma processQueueCheck_def (maxConcurrency requestInterval : Nat) (s : QueueState) :
    processQueueCheck maxConcurrency requestInterval s =
      if maxConcurrency ≤ s.inflight.length ∨ s.queue.isEmpty then .ret
      else if s.now - s.lastRequestTime < requestInterval then
        .reschedule (requestInterval - (s.now - s.lastRequestTime))
      else .dispatch := rfl

/-- The synchronous prefix dispatches exactly when there is a free
slot, a pending task, and the rate gate is open. -/
lemma processQueueCheck_dispatch_iff (maxConcurrency requestInterval : Nat)
    (s : QueueState) :
    processQueueCheck maxConcurrency requestInterval s = .dispatch ↔
      s.inflight.length < maxConcurrency ∧ s.queue ≠ [] ∧
        requestInterval ≤ s.now - s.lastRequestTime := by
  rw [processQueueCheck_def]
  by_cases h1 : maxConcurrency ≤ s.inflight.length ∨ s.queue.isEmpty
  · rw [if_pos h1]
    constructor
    · intro hc
      exact absurd hc (by simp)
    · rintro ⟨ha, hb, -⟩
      rcases h1 with h1 | h1
      · omega
      · exact absurd (List.isEmpty_iff.mp h1) hb
  · rw [if_neg h1]
    push_neg at h1
    by_cases h2 : s.now - s.lastRequestTime < requestInterval
    · rw [if_pos h2]
      constructor
      · intro hc
        exact absurd hc (by simp)
      · rintro ⟨-, -, hc⟩
        omega
    · rw [if_neg h2]
      refine ⟨fun _ => ⟨by omega, ?_, by omega⟩, fun _ => rfl⟩
      intro habs
      exact absurd (by simp [habs] : s.queue.isEmpty = true) h1.2

/-- The invariant holds of a freshly constructed queue. -/
lemma queueInv_init (maxConcurrency requestInterval t0 : Nat) :
    QueueInv maxConcurrency requestInterval (initState t0) :=
  ⟨Nat.zero_le _, Nat.zero_le _, by simp [initState], List.chain'_nil⟩

/-- Every step of the event loop preserves the invariant. -/
lemma queueInv_step {maxConcurrency requestInterval : Nat} {s s' : QueueState}
    (h : QueueInv maxConcurrency requestInterval s)
    (hstep : QStep maxConcurrency requestInterval s s') :
    QueueInv maxConcurrency requestInterval s' := by
  obtain ⟨hrun, hlrt, hhead, hgaps⟩ := h
  cases hstep with
  | tick d =>
    exact ⟨hrun, by dsimp; omega, hhead, hgaps⟩
  | submit t =>
    exact ⟨hrun, hlrt, hhead, hgaps⟩
  | dispatch t rest hq hcheck =>
    obtain ⟨hlt, hne, hgate⟩ :=
      (processQueueCheck_dispatch_iff maxConcurrency requestInterval s).mp hcheck
    refine ⟨by simpa using hlt, le_refl _, ?_, ?_⟩
    · intro x hx
      simp only [List.head?_cons, Option.mem_some_iff] at hx
      subst hx
      rfl
    · rw [List.chain'_cons']
      refine ⟨?_, hgaps⟩
      intro y hy
      have hyv := hhead y hy
      subst hyv
      omega
  | enterBackoff l1 l2 hin =>
    refine ⟨?_, hlrt, hhead, hgaps⟩
    rw [hin] at hrun
    simpa using hrun
  | exitBackoff l1 l2 hin =>
    refine ⟨?_, hlrt, hhead, hgaps⟩
    rw [hin] at hrun
    simpa using hrun
  | settle l1 l2 hin =>
    refine ⟨?_, hlrt, hhead, hgaps⟩
    rw [hin] at hrun
    simp only [List.length_append, List.length_cons] at hrun ⊢
    omega
  | clearStep =>
    exact ⟨hrun, hlrt, hhead, hgaps⟩

/-- The invariant holds of every reachable state. -/
lemma reachable_queueInv (maxConcurrency requestInterval t0 : Nat) (s : QueueState)
    (h : Reachable maxConcurrency requestInterval t0 s) :
    QueueInv maxConcurrency requestInterval s := by
  unfold Reachable at h
  induction h with
  | refl => exact queueInv_init maxConcurrency requestInterval t0
  | tail _ hstep ih => exact queueInv_step ih hstep

/-- Each in-flight slot is held by a task that is either executing or
sleeping in backoff, so `running` counts both. -/
lemma length_eq_executing_add_backoff (l : List TaskPhase) :
    l.length = (l.filter (fun p => p == TaskPhase.executing)).length +
      (l.filter (fun p => p == TaskPhase.backoff)).length := by
  induction l with
  | nil => rfl
  | cons p rest ih =>
    cases p <;> simp [List.filter_cons, ih] <;> omega

/-! ## Claim theorems: the queue invariants -/

/-- C3: in every reachable queue state the number of concurrently
running tasks never exceeds `maxConcurrency`; that count includes every
task sleeping in a retry backoff (a backoff wait still occupies its
slot); and the dispatch path only fires when `running < maxConcurrency`. -/
theorem running_le_capacity (maxConcurrency requestInterval t0 : Nat)
    (s : QueueState) (h : Reachable maxConcurrency requestInterval t0 s) :
    UploadQueue.running s ≤ maxConcurrency ∧
    UploadQueue.running s =
      (s.inflight.filter (fun p => p == TaskPhase.executing)).length +
      (s.inflight.filter (fun p => p == TaskPhase.backoff)).length ∧
    (processQueueCheck maxConcurrency requestInterval s = .dispatch →
      UploadQueue.running s < maxConcurrency) := by
  refine ⟨(reachable_queueInv maxConcurrency requestInterval t0 s h).1, ?_, ?_⟩
  · exact length_eq_executing_add_backoff s.inflight
  · intro hd
    exact ((processQueueCheck_dispatch_iff maxConcurrency requestInterval s).mp hd).1

/-- Witness for C3: a state reached by submitting one task and
dispatching it (capacity 3, interval 300 ms, clock at 1000). -/
theorem running_le_capacity_witness :
    UploadQueue.running ⟨[], [TaskPhase.executing], 1000, 1000, [1000]⟩ ≤ 3 ∧
    UploadQueue.running ⟨[], [TaskPhase.executing], 1000, 1000, [1000]⟩ =
      (([TaskPhase.executing] : List TaskPhase).filter
        (fun p => p == TaskPhase.executing)).length +
      (([TaskPhase.executing] : List TaskPhase).filter
        (fun p => p == TaskPhase.backoff)).length ∧
    (processQueueCheck 3 300 ⟨[], [TaskPhase.executing], 1000, 1000, [1000]⟩ = .dispatch →
      UploadQueue.running ⟨[], [TaskPhase.executing], 1000, 1000, [1000]⟩ < 3) := by
  have h01 : QStep 3 300 (initState 1000) ⟨[⟨"task-1", 3⟩], [], 0, 1000, []⟩ :=
    QStep.submit (initState 1000) ⟨"task-1", 3⟩
  have h12 : QStep 3 300 ⟨[⟨"task-1", 3⟩], [], 0, 1000, []⟩
      ⟨[], [TaskPhase.executing], 1000, 1000, [1000]⟩ :=
    QStep.dispatch ⟨[⟨"task-1", 3⟩], [], 0, 1000, []⟩ ⟨"task-1", 3⟩ [] rfl (by decide)
  exact running_le_capacity 3 300 1000 ⟨[], [TaskPhase.executing], 1000, 1000, [1000]⟩
    (Relation.ReflTransGen.tail (Relation.ReflTransGen.tail Relation.ReflTransGen.refl h01)
      h12)

/-- C4: in every reachable queue state, consecutive recorded initial
dispatch times are at least `requestInterval` apart (the wall-clock gap
between two consecutive initial dispatches is `>= interval`); and
whenever the rate gate blocks an otherwise-possible dispatch, the loop
is rescheduled to fire after exactly
`requestInterval - (now - lastRequestTime)` ms rather than polling. -/
theorem initial_dispatch_gap (maxConcurrency requestInterval t0 : Nat)
    (s : QueueState) (h : Reachable maxConcurrency requestInterval t0 s) :
    s.dispatchTimes.Chain' (fun a b => b + requestInterval ≤ a) ∧
    (UploadQueue.running s < maxConcurrency → s.queue ≠ [] →
      s.now - s.lastRequestTime < requestInterval →
      processQueueCheck maxConcurrency requestInterval s =
        .reschedule (requestInterval - (s.now - s.lastRequestTime))) := by
  refine ⟨(reachable_queueInv maxConcurrency requestInterval t0 s h).2.2.2, ?_⟩
  intro h1 h2 h3
  rw [processQueueCheck_def]
  rw [if_neg ?_, if_pos h3]
  rintro (hc | hc)
  · exact absurd h1 (not_lt.mpr hc)
  · exact h2 (List.isEmpty_iff.mp hc)

/-- Witness for C4: a state with two recorded dispatches, 300 ms apart
(submit, submit, dispatch at 1000, tick to 1300, dispatch at 1300). -/
theorem initial_dispatch_gap_witness :
    ([1300, 1000] : List Nat).Chain' (fun a b => b + 300 ≤ a) ∧
    (UploadQueue.running
        ⟨[], [TaskPhase.executing, TaskPhase.executing], 1300, 1300, [1300, 1000]⟩ < 3 →
      ([] : List QueuedTask) ≠ [] →
      1300 - 1300 < 300 →
      processQueueCheck 3 300
          ⟨[], [TaskPhase.executing, TaskPhase.executing], 1300, 1300, [1300, 1000]⟩ =
        .reschedule (300 - (1300 - 1300))) := by
  have h01 : QStep 3 300 (initState 1000) ⟨[⟨"a", 3⟩], [], 0, 1000, []⟩ :=
    QStep.submit (initState 1000) ⟨"a", 3⟩
  have h12 : QStep 3 300 ⟨[⟨"a", 3⟩], [], 0, 1000, []⟩
      ⟨[⟨"a", 3⟩, ⟨"b", 3⟩], [], 0, 1000, []⟩ :=
    QStep.submit ⟨[⟨"a", 3⟩], [], 0, 1000, []⟩ ⟨"b", 3⟩
  have h23 : QStep 3 300 ⟨[⟨"a", 3⟩, ⟨"b", 3⟩], [], 0, 1000, []⟩
      ⟨[⟨"b", 3⟩], [TaskPhase.executing], 1000, 1000, [1000]⟩ :=
    QStep.dispatch ⟨[⟨"a", 3⟩, ⟨"b", 3⟩], [], 0, 1000, []⟩ ⟨"a", 3⟩ [⟨"b", 3⟩] rfl
      (by decide)
  have h34 : QStep 3 300 ⟨[⟨"b", 3⟩], [TaskPhase.executing], 1000, 1000, [1000]⟩
      ⟨[⟨"b", 3⟩], [TaskPhase.executing], 1000, 1300, [1000]⟩ :=
    QStep.tick ⟨[⟨"b", 3⟩], [TaskPhase.executing], 1000, 1000, [1000]⟩ 300
  have h45 : QStep 3 300 ⟨[⟨"b", 3⟩], [TaskPhase.executing], 1000, 1300, [1000]⟩
      ⟨[], [TaskPhase.executing, TaskPhase.executing], 1300, 1300, [1300, 1000]⟩ :=
    QStep.dispatch ⟨[⟨"b", 3⟩], [TaskPhase.executing], 1000, 1300, [1000]⟩ ⟨"b", 3⟩ []
      rfl (by decide)
  exact initial_dispatch_gap 3 300 1000
    ⟨[], [TaskPhase.executing, TaskPhase.executing], 1300, 1300, [1300, 1000]⟩
    (Relation.ReflTransGen.tail
      (Relation.ReflTransGen.tail
        (Relation.ReflTransGen.tail
          (Relation.ReflTransGen.tail
            (Relation.ReflTransGen.tail Relation.ReflTransGen.refl h01) h12) h23) h34)
      h45)

end BarcodePlugin
